import Mathlib

/-
Verification of the conversion core in src/convert_to_RTTM/convert.py: the
container class holding (segment, track, label) records with its RTTM and
Audacity marker-timeline parsers and serializers.

Modelling conventions of the shallow embedding:
  * Python float values are modelled as exact rationals: every numeric value
    appearing in the claims is a short decimal, exactly representable, so
    rational arithmetic agrees with IEEE double arithmetic on them.
  * Python str is modelled as Lean String (a list of characters).
  * A text file being read is modelled as the list of its lines (each line
    carrying its trailing newline, as Python file iteration yields them); an
    open output sink is modelled as the list of chunks written to it so far.
  * A call that may raise is modelled as an Except value.
-/

/- The Batteries rational arithmetic definitions are marked irreducible, which
blocks compile-time evaluation by decide; restore default reducibility locally
so that concrete scenarios can be settled by evaluation. -/
attribute [local semireducible] Rat.add Rat.mul Rat.inv Rat.sub Rat.ofScientific

/-- Characters stripped by Python str.rstrip() with no argument. -/
def isPyWhitespace (c : Char) : Bool :=
  c = ' ' || c = '\t' || c = '\n' || c = '\r' || c = '\x0b' || c = '\x0c'

/-- Python str.rstrip() on the character list of a string: drop every trailing
whitespace character. -/
def rstripL (cs : List Char) : List Char :=
  (cs.reverse.dropWhile isPyWhitespace).reverse

/-- Python str.rstrip(): the source calls it on each input line before
splitting, which removes the trailing line terminator (and any other trailing
whitespace). -/
def rstrip (s : String) : String :=
  String.mk (rstripL s.toList)

/-- Splitting a character list at every separator character satisfying p,
keeping empty pieces: the behaviour of Python str.split(sep) for a
one-character separator (consecutive separators yield empty tokens). -/
def splitOnPredL (p : Char → Bool) : List Char → List (List Char)
  | [] => [[]]
  | c :: cs =>
    if p c then [] :: splitOnPredL p cs
    else
      match splitOnPredL p cs with
      | [] => [[c]]
      | t :: ts => (c :: t) :: ts

/-- Python str.split(sep) for a single-character separator, as used by the
source with sep a space (from_rttm) and sep a tab (from_audacity). -/
def pySplit (sep : Char) (s : String) : List String :=
  (splitOnPredL (fun c => c = sep) s.toList).map String.mk

/-- Numeric value of a decimal digit character. -/
def digitVal (c : Char) : Nat := c.toNat - 48

/-- Value of a list of decimal digit characters, most significant first. -/
def digitsToNat (ds : List Char) : Nat :=
  ds.foldl (fun n c => 10 * n + digitVal c) 0

/-- A nonempty, all-digit character list. -/
def isDigits (ds : List Char) : Bool :=
  !ds.isEmpty && ds.all Char.isDigit

/-- Strips an optional leading sign character, returning whether it was a
minus sign. -/
def parseSign : List Char → Bool × List Char
  | [] => (false, [])
  | c :: cs =>
    if c = '-' then (true, cs)
    else if c = '+' then (false, cs)
    else (false, c :: cs)

/-- Splits a character list at the first character satisfying p, if any. -/
def breakAt (p : Char → Bool) : List Char → List Char × Option (List Char)
  | [] => ([], none)
  | c :: cs =>
    if p c then ([], some cs)
    else
      let r := breakAt p cs
      (c :: r.1, r.2)

/-- Unsigned decimal mantissa of a Python float literal: digits with an
optional decimal point, at least one digit overall. -/
def parseUnsignedMantissa (cs : List Char) : Option ℚ :=
  match breakAt (fun c => c = '.') cs with
  | (ip, none) =>
    if isDigits ip then some (digitsToNat ip : ℚ) else none
  | (ip, some fp) =>
    if ip.all Char.isDigit && fp.all Char.isDigit && !(ip.isEmpty && fp.isEmpty) then
      some ((digitsToNat ip : ℚ) + (digitsToNat fp : ℚ) / 10 ^ fp.length)
    else none

/-- Unsigned part of a Python float literal: mantissa with an optional
decimal exponent. -/
def pyFloatUnsigned (cs : List Char) : Option ℚ :=
  match breakAt (fun c => c = 'e' || c = 'E') cs with
  | (mant, expPart) =>
    match parseUnsignedMantissa mant with
    | none => none
    | some mval =>
      match expPart with
      | none => some mval
      | some ecs =>
        let esp := parseSign ecs
        if isDigits esp.2 then
          let e := digitsToNat esp.2
          some (if esp.1 then mval / 10 ^ e else mval * 10 ^ e)
        else none

/-- Model of Python float(str) on the character list: optional sign, digits
with optional decimal point, optional decimal exponent. -/
def pyFloatL (cs : List Char) : Option ℚ :=
  let sp := parseSign cs
  match pyFloatUnsigned sp.2 with
  | none => none
  | some v => some (if sp.1 then -v else v)

/-- Model of Python float(str) on finite decimal literals. Surrounding
whitespace, digit-group underscores and the inf and nan spellings accepted by
Python are outside the model; exact rational arithmetic stands in for IEEE
doubles (exact on every value the claims mention). -/
def pyFloat (s : String) : Option ℚ :=
  pyFloatL s.toList

/-- Model of Python int(str): optional sign followed by decimal digits
(surrounding whitespace and underscores are outside the model). -/
def pyInt (s : String) : Option ℤ :=
  let sp := parseSign s.toList
  if isDigits sp.2 then
    some (if sp.1 then -(digitsToNat sp.2 : ℤ) else (digitsToNat sp.2 : ℤ))
  else none

/-- Rounding to the nearest integer with ties to even, the rounding applied by
Python fixed-point float formatting. -/
def roundHalfEven (q : ℚ) : ℤ :=
  let f := ⌊q⌋
  let r := q - f
  if r < 1/2 then f
  else if 1/2 < r then f + 1
  else if f % 2 = 0 then f else f + 1

/-- Decimal digits of n, most significant first; fuel-based recursion so that
it evaluates inside the kernel. -/
def natDigitsAux : Nat → Nat → List Char
  | 0, _ => []
  | fuel + 1, n =>
    if n < 10 then [Nat.digitChar n]
    else natDigitsAux fuel (n / 10) ++ [Nat.digitChar (n % 10)]

/-- Decimal digits of n, most significant first, no leading zeros (except for
0 itself). -/
def natDigits (n : Nat) : List Char := natDigitsAux (n + 1) n

/-- The three decimal digits of n < 1000, zero padded. -/
def pad3 (n : Nat) : List Char :=
  [Nat.digitChar (n / 100 % 10), Nat.digitChar (n / 10 % 10), Nat.digitChar (n % 10)]

/-- Model of the Python format specifier with three fixed decimals, written
{x:.3f} in an f-string: fixed-point, exactly three digits after the point.
(The IEEE negative zero, which Python would print with a minus sign, does not
exist in the rational model.) -/
def formatFixed3 (q : ℚ) : String :=
  let n := roundHalfEven (q * 1000)
  let m := n.natAbs
  let ds := natDigits (m / 1000) ++ '.' :: pad3 (m % 1000)
  String.mk (if n < 0 then '-' :: ds else ds)

/-- The pyannote.core Segment as consumed by convert.py, per the spec's
TimeSegment description: an immutable pair of float timestamps. The field
stop embeds the Python attribute named end (a Lean keyword). -/
structure Segment where
  start : ℚ
  stop : ℚ
deriving DecidableEq

/-- Segment.duration in pyannote.core: end minus start, derived, not stored. -/
def Segment.duration (s : Segment) : ℚ := s.stop - s.start

/-- A (segment, track, label) tuple as stored in segment_list. -/
abbrev Record := Segment × ℤ × String

/-- The Python exceptions the parsing code can raise: IndexError from token
indexing, ValueError from int() and float() conversions and from tuple
unpacking. -/
inductive PyError where
  | indexError
  | valueError
deriving DecidableEq

deriving instance DecidableEq for Except

/-- The container class of convert.py (its segment_list, uri and modality
attributes). -/
structure Annot where
  segment_list : List Record
  uri : Option String
  modality : Option String
deriving DecidableEq

/-- The from_records constructor: wraps a caller-supplied record list with no
transformation and no validation. -/
def from_records (segment_list : List Record) (uri modality : Option String) : Annot :=
  Annot.mk segment_list uri modality

/-- Python f-string interpolation of the optional uri: str(None) is the
literal text None. -/
def pyStr : Option String → String
  | none => "None"
  | some s => s

/-- Python indexing line[i] into the token list: IndexError when out of
range. -/
def getTok (toks : List String) (i : Nat) : Except PyError String :=
  match toks.get? i with
  | some t => Except.ok t
  | none => Except.error PyError.indexError

/-- Processing of one (already split) RTTM token list, in the evaluation
order of the source line
  Segment(start=float(line[3]), end=float(line[3]) + float(line[4])),
  int(line[2]), str(line[7]). -/
def parseRTTMTokens (toks : List String) : Except PyError Record :=
  match getTok toks 3 with
  | Except.error e => Except.error e
  | Except.ok t3 =>
    match pyFloat t3 with
    | none => Except.error PyError.valueError
    | some s =>
      match getTok toks 4 with
      | Except.error e => Except.error e
      | Except.ok t4 =>
        match pyFloat t4 with
        | none => Except.error PyError.valueError
        | some d =>
          match getTok toks 2 with
          | Except.error e => Except.error e
          | Except.ok t2 =>
            match pyInt t2 with
            | none => Except.error PyError.valueError
            | some track =>
              match getTok toks 7 with
              | Except.error e => Except.error e
              | Except.ok t7 => Except.ok (Segment.mk s (s + d), track, t7)

/-- Processing of one line of from_rttm: line.rstrip().split(" ") followed by
the token processing. -/
def parseRTTMLine (line : String) : Except PyError Record :=
  parseRTTMTokens (pySplit ' ' (rstrip line))

/-- The parsing loop shared by from_rttm and from_audacity: one record is
appended per line, in file order, and the first exception aborts the whole
call. -/
def parseLines (f : String → Except PyError Record) :
    List String → Except PyError (List Record)
  | [] => Except.ok []
  | l :: ls =>
    match f l with
    | Except.error e => Except.error e
    | Except.ok r =>
      match parseLines f ls with
      | Except.error e => Except.error e
      | Except.ok rs => Except.ok (r :: rs)

/-- The from_rttm constructor on the lines of the given text source. -/
def from_rttm (lines : List String) (uri modality : Option String) :
    Except PyError Annot :=
  match parseLines parseRTTMLine lines with
  | Except.error e => Except.error e
  | Except.ok segment_list => Except.ok (from_records segment_list uri modality)

/-- The line generated for one record by the audacity line generator of the
source: start and stop with three decimals and the label, tab separated; the
record's track id is ignored. -/
def audacityLine (r : Record) : String :=
  formatFixed3 r.1.start ++ "\t" ++ formatFixed3 r.1.stop ++ "\t" ++ r.2.2 ++ "\n"

/-- The lazy line generator of the source (its audacity iterator method):
one line per record, in record order. -/
def iter_audacity (a : Annot) : List String :=
  a.segment_list.map audacityLine

/-- The to_audacity serializer: the concatenation of the generated lines. -/
def to_audacity (a : Annot) : String :=
  String.join (iter_audacity a)

/-- The write_audacity serializer: writes each generated line to the output
sink, modelled as the list of chunks written so far. -/
def write_audacity (a : Annot) (file : List String) : List String :=
  (iter_audacity a).foldl (fun f line => f ++ [line]) file

/-- The RTTM line written for one record: the channel field is the hardcoded
constant 1 (not the record's track id), the uri is interpolated as-is, and
the duration field is Segment.duration, computed at write time. -/
def rttmLine (uri : Option String) (r : Record) : String :=
  "SPEAKER " ++ pyStr uri ++ " 1 " ++ formatFixed3 r.1.start ++ " " ++
    formatFixed3 r.1.duration ++ " <NA> <NA> " ++ r.2.2 ++ " <NA>\n"

/-- The to_rttm serializer: writes one RTTM line per record, in record order,
to the output sink. -/
def to_rttm (a : Annot) (file : List String) : List String :=
  a.segment_list.foldl (fun f r => f ++ [rttmLine a.uri r]) file

/-- Processing of one (already split) audacity field list: the unpacking
start, end, label = fields raises ValueError unless there are exactly three
fields; then float(start), float(end) are parsed and the track is the
constant 1. -/
def parseAudacityFields (fields : List String) : Except PyError Record :=
  match fields with
  | [start, stop, label] =>
    match pyFloat start with
    | none => Except.error PyError.valueError
    | some s =>
      match pyFloat stop with
      | none => Except.error PyError.valueError
      | some e => Except.ok (Segment.mk s e, 1, label)
  | _ => Except.error PyError.valueError

/-- Processing of one line of from_audacity:
start, end, label = line.rstrip().split("\t") and the field processing. -/
def parseAudacityLine (line : String) : Except PyError Record :=
  parseAudacityFields (pySplit '\t' (rstrip line))

/-- The from_audacity constructor on the lines of the named input file. -/
def from_audacity (lines : List String) (uri modality : Option String) :
    Except PyError Annot :=
  match parseLines parseAudacityLine lines with
  | Except.error e => Except.error e
  | Except.ok segment_list => Except.ok (from_records segment_list uri modality)

/-- Modelled from the spec: the error-handling claim speaks of whitespace
separated tokens, that is Python str.split() with no argument, which splits
on maximal runs of whitespace and discards empty tokens. Used only to compare
the claim's wording with the source's split on single space characters. -/
def wsSplit (s : String) : List String :=
  ((splitOnPredL isPyWhitespace s.toList).filter (fun t => !t.isEmpty)).map String.mk

/-- Calling the to_rttm method on its receiver: the body reads
self.segment_list and self.uri and assigns no attribute, so the faithful
state transition returns the receiver unchanged together with the output. -/
def to_rttm_method (a : Annot) (file : List String) : Annot × List String :=
  (a, to_rttm a file)

/-- Calling the to_audacity method on its receiver; the body assigns no
attribute. -/
def to_audacity_method (a : Annot) : Annot × String :=
  (a, to_audacity a)

/-- Calling the write_audacity method on its receiver; the body assigns no
attribute. -/
def write_audacity_method (a : Annot) (file : List String) : Annot × List String :=
  (a, write_audacity a file)

/-- Labels whose marker-timeline line survives the round trip unchanged:
nonempty, free of tabs (which would change the field count) and of newlines,
and not ending in whitespace (which rstrip would drop). -/
def goodLabel (lab : String) : Bool :=
  !lab.toList.isEmpty &&
  lab.toList.all (fun c => !(c = '\t' || c = '\n')) &&
  match lab.toList.getLast? with
  | some c => !isPyWhitespace c
  | none => false

/-- The rational a correctly 3-decimal-formatted field denotes: an integer
number of thousandths. -/
def quant3 (q : ℚ) : ℚ := (roundHalfEven (q * 1000) : ℚ) / 1000

/-- A marker-timeline line with 3-decimal-formatted numeric fields. -/
def audTextLine (s e : ℚ) (lab : String) : String :=
  formatFixed3 s ++ "\t" ++ formatFixed3 e ++ "\t" ++ lab ++ "\n"

/-- Folding line writes onto a sink appends the mapped lines in order. -/
theorem foldl_append_map {α β : Type} (g : α → β) :
    ∀ (l : List α) (file : List β),
      l.foldl (fun f x => f ++ [g x]) file = file ++ l.map g
  | [], file => by simp
  | x :: xs, file => by
    simp only [List.foldl_cons, List.map_cons]
    rw [foldl_append_map g xs (file ++ [g x])]
    simp

/-- Writing to_rttm appends one RTTM line per record, in record order. -/
theorem to_rttm_eq_map (a : Annot) (file : List String) :
    to_rttm a file = file ++ a.segment_list.map (rttmLine a.uri) :=
  foldl_append_map (rttmLine a.uri) a.segment_list file

/-- write_audacity appends exactly the generated lines to the sink. -/
theorem write_audacity_eq (a : Annot) (file : List String) :
    write_audacity a file = file ++ iter_audacity a := by
  have h := foldl_append_map (fun s : String => s) (iter_audacity a) file
  simpa [write_audacity] using h

/-- Splitting never produces an empty piece list. -/
theorem splitOnPredL_ne_nil (p : Char → Bool) (l : List Char) :
    splitOnPredL p l ≠ [] := by
  cases l with
  | nil => simp [splitOnPredL]
  | cons c cs =>
    unfold splitOnPredL
    split
    · simp
    · split <;> simp

/-- Splitting a list with no separator occurrence yields that list alone. -/
theorem splitOnPredL_all_false {p : Char → Bool} :
    ∀ {l : List Char}, (∀ c ∈ l, p c = false) → splitOnPredL p l = [l]
  | [], _ => rfl
  | c :: cs, h => by
    have hc : p c = false := h c (List.mem_cons_self c cs)
    have ih := splitOnPredL_all_false (l := cs)
      (fun x hx => h x (List.mem_cons_of_mem c hx))
    simp [splitOnPredL, hc, ih]

/-- Splitting peels off the piece before the first separator. -/
theorem splitOnPredL_append {p : Char → Bool} (c : Char) (ys : List Char)
    (hc : p c = true) :
    ∀ (xs : List Char), (∀ x ∈ xs, p x = false) →
      splitOnPredL p (xs ++ c :: ys) = xs :: splitOnPredL p ys
  | [], _ => by simp [splitOnPredL, hc]
  | x :: xs', h => by
    have hx : p x = false := h x (List.mem_cons_self x xs')
    have ih := splitOnPredL_append c ys hc xs'
      (fun z hz => h z (List.mem_cons_of_mem x hz))
    simp [splitOnPredL, hx, ih]

/-- breakAt finds nothing in a list with no matching character. -/
theorem breakAt_none {p : Char → Bool} :
    ∀ {l : List Char}, (∀ c ∈ l, p c = false) → breakAt p l = (l, none)
  | [], _ => rfl
  | c :: cs, h => by
    have hc : p c = false := h c (List.mem_cons_self c cs)
    have ih := breakAt_none (l := cs) (fun x hx => h x (List.mem_cons_of_mem c hx))
    simp [breakAt, hc, ih]

/-- breakAt splits at the first matching character. -/
theorem breakAt_first {p : Char → Bool} (c : Char) (ys : List Char)
    (hc : p c = true) :
    ∀ (xs : List Char), (∀ x ∈ xs, p x = false) →
      breakAt p (xs ++ c :: ys) = (xs, some ys)
  | [], _ => by simp [breakAt, hc]
  | x :: xs', h => by
    have hx : p x = false := h x (List.mem_cons_self x xs')
    have ih := breakAt_first c ys hc xs'
      (fun z hz => h z (List.mem_cons_of_mem x hz))
    simp [breakAt, hx, ih]

/-- rstrip removes exactly the trailing newline when the text before it does
not end in whitespace. -/
theorem rstripL_spec (xs ys : List Char) (hne : ys ≠ [])
    (hlast : ∀ c, ys.getLast? = some c → isPyWhitespace c = false) :
    rstripL (xs ++ ys ++ ['\n']) = xs ++ ys := by
  unfold rstripL
  rw [List.reverse_append, List.reverse_append]
  simp only [List.reverse_cons, List.reverse_nil, List.nil_append,
    List.singleton_append]
  rw [List.dropWhile_cons]
  simp only [show isPyWhitespace '\n' = true from rfl, if_true]
  cases hrev : ys.reverse with
  | nil => exact absurd (List.reverse_eq_nil_iff.mp hrev) hne
  | cons c t =>
    have hcl : ys.getLast? = some c := by
      rw [← List.head?_reverse, hrev]; rfl
    have hws : isPyWhitespace c = false := hlast c hcl
    rw [List.cons_append, List.dropWhile_cons, if_neg (by simp [hws])]
    rw [show c :: (t ++ xs.reverse) = ys.reverse ++ xs.reverse by
      rw [hrev, List.cons_append]]
    rw [List.reverse_append, List.reverse_reverse, List.reverse_reverse]

/-- The numeric value of a digit character round-trips. -/
theorem digitVal_digitChar {d : Nat} (hd : d < 10) :
    digitVal (Nat.digitChar d) = d := by
  interval_cases d <;> decide

/-- A digit character is none of the structural characters of a float
literal, is not whitespace and is not a tab. -/
theorem digitChar_class {d : Nat} (hd : d < 10) :
    Nat.digitChar d ≠ '.' ∧ Nat.digitChar d ≠ 'e' ∧ Nat.digitChar d ≠ 'E' ∧
    Nat.digitChar d ≠ '-' ∧ Nat.digitChar d ≠ '+' ∧ Nat.digitChar d ≠ '\t' ∧
    isPyWhitespace (Nat.digitChar d) = false ∧ (Nat.digitChar d).isDigit = true := by
  interval_cases d <;> decide

/-- Every character produced by the digit writer is a digit character. -/
theorem natDigitsAux_mem {fuel : Nat} :
    ∀ {n : Nat}, n < fuel → ∀ c ∈ natDigitsAux fuel n, ∃ d, d < 10 ∧ c = Nat.digitChar d := by
  induction fuel with
  | zero => exact fun hn => absurd hn (Nat.not_lt_zero _)
  | succ fuel ih =>
    intro n hn c hc
    by_cases h : n < 10
    · simp [natDigitsAux, h] at hc
      exact ⟨n, h, hc⟩
    · have hpos : 0 < n := by omega
      have hdiv : n / 10 < fuel := by
        have := Nat.div_lt_self hpos (by omega : 1 < 10)
        omega
      simp only [natDigitsAux, if_neg h, List.mem_append, List.mem_singleton] at hc
      rcases hc with hc | hc
      · exact ih hdiv c hc
      · exact ⟨n % 10, Nat.mod_lt n (by omega), hc⟩

/-- Appending one digit multiplies the value by ten and adds it. -/
theorem digitsToNat_append (xs : List Char) (c : Char) :
    digitsToNat (xs ++ [c]) = 10 * digitsToNat xs + digitVal c := by
  simp [digitsToNat, List.foldl_append]

/-- The digit writer is correct. -/
theorem digitsToNat_natDigitsAux {fuel : Nat} :
    ∀ {n : Nat}, n < fuel → digitsToNat (natDigitsAux fuel n) = n := by
  induction fuel with
  | zero => exact fun hn => absurd hn (Nat.not_lt_zero _)
  | succ fuel ih =>
    intro n hn
    by_cases h : n < 10
    · have hv := digitVal_digitChar h
      simp [natDigitsAux, h, digitsToNat, hv]
    · have hpos : 0 < n := by omega
      have hdiv : n / 10 < fuel := by
        have := Nat.div_lt_self hpos (by omega : 1 < 10)
        omega
      have hmod := digitVal_digitChar (Nat.mod_lt n (show 0 < 10 by omega))
      simp only [natDigitsAux, if_neg h, digitsToNat_append, ih hdiv, hmod]
      omega

/-- The digit writer never produces an empty list. -/
theorem natDigitsAux_ne_nil {fuel n : Nat} (hn : n < fuel) :
    natDigitsAux fuel n ≠ [] := by
  cases fuel with
  | zero => exact absurd hn (Nat.not_lt_zero _)
  | succ fuel => by_cases h : n < 10 <;> simp [natDigitsAux, h]

/-- Every character of natDigits is a digit character. -/
theorem natDigits_mem {n : Nat} :
    ∀ c ∈ natDigits n, ∃ d, d < 10 ∧ c = Nat.digitChar d :=
  natDigitsAux_mem (Nat.lt_succ_self n)

/-- natDigits is correct. -/
theorem digitsToNat_natDigits (n : Nat) : digitsToNat (natDigits n) = n :=
  digitsToNat_natDigitsAux (Nat.lt_succ_self n)

/-- natDigits is nonempty. -/
theorem natDigits_ne_nil (n : Nat) : natDigits n ≠ [] :=
  natDigitsAux_ne_nil (Nat.lt_succ_self n)

/-- Every character of the three-digit pad is a digit character. -/
theorem pad3_mem (b : Nat) :
    ∀ c ∈ pad3 b, ∃ d, d < 10 ∧ c = Nat.digitChar d := by
  intro c hc
  simp only [pad3, List.mem_cons, List.mem_singleton, List.not_mem_nil, or_false] at hc
  rcases hc with h | h | h <;>
    exact ⟨_, Nat.mod_lt _ (by omega), h⟩

/-- The three-digit pad writes n < 1000 correctly. -/
theorem digitsToNat_pad3 {b : Nat} (hb : b < 1000) : digitsToNat (pad3 b) = b := by
  have h2 := digitVal_digitChar (Nat.mod_lt (b / 100) (show 0 < 10 by omega))
  have h1 := digitVal_digitChar (Nat.mod_lt (b / 10) (show 0 < 10 by omega))
  have h0 := digitVal_digitChar (Nat.mod_lt b (show 0 < 10 by omega))
  simp only [pad3, digitsToNat, List.foldl_cons, List.foldl_nil, h2, h1, h0]
  omega

/-- The mantissa written by formatFixed3 parses back to its exact value. -/
theorem parseUnsignedMantissa_digits (a : Nat) {b : Nat} (hb : b < 1000) :
    parseUnsignedMantissa (natDigits a ++ '.' :: pad3 b) =
      some ((a : ℚ) + (b : ℚ) / 1000) := by
  unfold parseUnsignedMantissa
  rw [breakAt_first '.' (pad3 b) (by decide) (natDigits a) ?hdot]
  case hdot =>
    intro x hx
    obtain ⟨d, hd, rfl⟩ := natDigits_mem x hx
    simp [(digitChar_class hd).1]
  have hipall : (natDigits a).all Char.isDigit = true := by
    rw [List.all_eq_true]
    intro x hx
    obtain ⟨d, hd, rfl⟩ := natDigits_mem x hx
    exact (digitChar_class hd).2.2.2.2.2.2.2
  have hfpall : (pad3 b).all Char.isDigit = true := by
    rw [List.all_eq_true]
    intro x hx
    obtain ⟨d, hd, rfl⟩ := pad3_mem b x hx
    exact (digitChar_class hd).2.2.2.2.2.2.2
  dsimp only
  rw [if_pos (by simp [hipall, hfpall, show (pad3 b).isEmpty = false from rfl])]
  rw [digitsToNat_natDigits, digitsToNat_pad3 hb]
  norm_num [pad3]

/-- The digit-and-point text contains no exponent marker. -/
theorem breakAt_noExp (a : Nat) (b : Nat) :
    breakAt (fun c => c = 'e' || c = 'E') (natDigits a ++ '.' :: pad3 b) =
      (natDigits a ++ '.' :: pad3 b, none) := by
  apply breakAt_none
  intro c hc
  rcases List.mem_append.mp hc with h | h
  · obtain ⟨d, hd, rfl⟩ := natDigits_mem c h
    simp [(digitChar_class hd).2.1, (digitChar_class hd).2.2.1]
  · rcases List.mem_cons.mp h with rfl | h
    · decide
    · obtain ⟨d, hd, rfl⟩ := pad3_mem b c h
      simp [(digitChar_class hd).2.1, (digitChar_class hd).2.2.1]

/-- The unsigned float pipeline on the text written by the formatter. -/
theorem pyFloatUnsigned_digits (a : Nat) {b : Nat} (hb : b < 1000) :
    pyFloatUnsigned (natDigits a ++ '.' :: pad3 b) =
      some ((a : ℚ) + (b : ℚ) / 1000) := by
  unfold pyFloatUnsigned
  rw [breakAt_noExp]
  dsimp only
  rw [parseUnsignedMantissa_digits a hb]

/-- No sign is stripped from a text starting with a digit. -/
theorem parseSign_digits (a : Nat) (rest : List Char) :
    parseSign (natDigits a ++ rest) = (false, natDigits a ++ rest) := by
  cases hnd : natDigits a with
  | nil => exact absurd hnd (natDigits_ne_nil a)
  | cons c t =>
    have hc : c ∈ natDigits a := by rw [hnd]; exact List.mem_cons_self c t
    obtain ⟨d, hd, rfl⟩ := natDigits_mem c hc
    simp [parseSign, (digitChar_class hd).2.2.2.1, (digitChar_class hd).2.2.2.2.1]

/-- formatFixed3 unfolded to its branches. -/
theorem formatFixed3_eq (q : ℚ) :
    formatFixed3 q = String.mk
      (if roundHalfEven (q * 1000) < 0 then
        '-' :: (natDigits ((roundHalfEven (q * 1000)).natAbs / 1000) ++
          '.' :: pad3 ((roundHalfEven (q * 1000)).natAbs % 1000))
       else
        natDigits ((roundHalfEven (q * 1000)).natAbs / 1000) ++
          '.' :: pad3 ((roundHalfEven (q * 1000)).natAbs % 1000)) := rfl

/-- Splitting a natural into thousands and remainder, in the rationals. -/
theorem cast_div_mod_1000 (m : Nat) :
    ((m / 1000 : ℕ) : ℚ) + ((m % 1000 : ℕ) : ℚ) / 1000 = (m : ℚ) / 1000 := by
  rw [eq_div_iff (by norm_num : (1000 : ℚ) ≠ 0), add_mul,
    div_mul_cancel₀ _ (by norm_num : (1000 : ℚ) ≠ 0)]
  exact_mod_cast (by omega : m / 1000 * 1000 + m % 1000 = m)

/-- A correctly 3-decimal-formatted field parses back to the value it
denotes: float() of a formatted value is that value rounded to thousandths. -/
theorem pyFloat_formatFixed3 (q : ℚ) :
    pyFloat (formatFixed3 q) = some (quant3 q) := by
  rw [formatFixed3_eq]
  unfold quant3 pyFloat
  generalize roundHalfEven (q * 1000) = n
  have hmod : n.natAbs % 1000 < 1000 := Nat.mod_lt _ (by omega)
  by_cases hneg : n < 0
  · rw [if_pos hneg]
    show pyFloatL ('-' :: (natDigits (n.natAbs / 1000) ++
      '.' :: pad3 (n.natAbs % 1000))) = _
    unfold pyFloatL
    rw [show parseSign ('-' :: (natDigits (n.natAbs / 1000) ++
        '.' :: pad3 (n.natAbs % 1000))) =
      (true, natDigits (n.natAbs / 1000) ++ '.' :: pad3 (n.natAbs % 1000)) from by
        simp [parseSign]]
    dsimp only
    rw [pyFloatUnsigned_digits _ hmod]
    simp only [eq_self_iff_true, if_true]
    congr 1
    rw [cast_div_mod_1000]
    have habs : ((n.natAbs : ℕ) : ℚ) = -(n : ℚ) := by
      rw [Int.cast_natAbs]
      exact_mod_cast abs_of_neg hneg
    rw [habs]
    ring
  · rw [if_neg hneg]
    show pyFloatL (natDigits (n.natAbs / 1000) ++
      '.' :: pad3 (n.natAbs % 1000)) = _
    unfold pyFloatL
    rw [parseSign_digits]
    dsimp only
    rw [pyFloatUnsigned_digits _ hmod]
    simp only [Bool.false_eq_true, if_false]
    congr 1
    rw [cast_div_mod_1000]
    have habs : ((n.natAbs : ℕ) : ℚ) = (n : ℚ) := by
      rw [Int.cast_natAbs]
      exact_mod_cast abs_of_nonneg (not_lt.mp hneg)
    rw [habs]

/-- String concatenation concatenates the character lists. -/
theorem toList_append (s t : String) : (s ++ t).toList = s.toList ++ t.toList := by
  cases s
  cases t
  rfl

/-- Rebuilding a string from its character list is the identity. -/
theorem mk_toList (s : String) : String.mk s.toList = s := by
  cases s
  rfl

/-- pySplit computed on an explicit character list. -/
theorem pySplit_mk (sep : Char) (l : List Char) :
    pySplit sep (String.mk l) = (splitOnPredL (fun c => c = sep) l).map String.mk := rfl

/-- A good label is nonempty. -/
theorem goodLabel_ne_nil {lab : String} (h : goodLabel lab = true) :
    lab.toList ≠ [] := by
  intro hnil
  rw [goodLabel, hnil] at h
  simp at h

/-- A good label contains no tab. -/
theorem goodLabel_no_tab {lab : String} (h : goodLabel lab = true) :
    ∀ c ∈ lab.toList, c ≠ '\t' := by
  intro c hc
  rw [goodLabel] at h
  simp only [Bool.and_eq_true] at h
  have hall := List.all_eq_true.mp h.1.2 c hc
  simp at hall
  exact hall.1

/-- A good label does not end in Python whitespace. -/
theorem goodLabel_last {lab : String} (h : goodLabel lab = true) :
    ∀ c, lab.toList.getLast? = some c → isPyWhitespace c = false := by
  intro c hc
  rw [goodLabel] at h
  simp only [Bool.and_eq_true] at h
  have h3 := h.2
  rw [hc] at h3
  simpa using h3

/-- The formatter text contains no tab character. -/
theorem digitsDot_no_tab {a b : Nat} :
    ∀ c ∈ natDigits a ++ '.' :: pad3 b, c ≠ '\t' := by
  intro c hc
  rcases List.mem_append.mp hc with h | h
  · obtain ⟨d, hd, rfl⟩ := natDigits_mem c h
    exact (digitChar_class hd).2.2.2.2.2.1
  · rcases List.mem_cons.mp h with rfl | h
    · decide
    · obtain ⟨d, hd, rfl⟩ := pad3_mem b c h
      exact (digitChar_class hd).2.2.2.2.2.1

/-- A 3-decimal-formatted field contains no tab character. -/
theorem formatFixed3_no_tab (q : ℚ) :
    ∀ c ∈ (formatFixed3 q).toList, c ≠ '\t' := by
  intro c hc
  rw [formatFixed3_eq] at hc
  by_cases hn : roundHalfEven (q * 1000) < 0
  · rw [if_pos hn] at hc
    rcases List.mem_cons.mp hc with rfl | hc'
    · decide
    · exact digitsDot_no_tab c hc'
  · rw [if_neg hn] at hc
    exact digitsDot_no_tab c hc

/-- Splitting an audacity line of the round-trip form yields its three
fields. -/
theorem pySplit_audTextLine (s e : ℚ) {lab : String} (hlab : goodLabel lab = true) :
    pySplit '\t' (rstrip (audTextLine s e lab)) =
      [formatFixed3 s, formatFixed3 e, lab] := by
  unfold rstrip audTextLine
  have hT : (formatFixed3 s ++ "\t" ++ formatFixed3 e ++ "\t" ++ lab ++ "\n").toList =
      ((formatFixed3 s).toList ++ '\t' ::
        ((formatFixed3 e).toList ++ '\t' :: lab.toList)) ++ ['\n'] := by
    simp [toList_append, show ("\t" : String).toList = ['\t'] from rfl,
      show ("\n" : String).toList = ['\n'] from rfl]
  rw [hT]
  have hstrip : rstripL (((formatFixed3 s).toList ++ '\t' ::
      ((formatFixed3 e).toList ++ '\t' :: lab.toList)) ++ ['\n']) =
      (formatFixed3 s).toList ++ '\t' :: ((formatFixed3 e).toList ++ '\t' :: lab.toList) := by
    have hshape : (formatFixed3 s).toList ++ '\t' ::
        ((formatFixed3 e).toList ++ '\t' :: lab.toList) =
        ((formatFixed3 s).toList ++ '\t' :: ((formatFixed3 e).toList ++ ['\t'])) ++
          lab.toList := by
      simp
    rw [hshape]
    exact rstripL_spec _ _ (goodLabel_ne_nil hlab) (goodLabel_last hlab)
  rw [hstrip, pySplit_mk]
  rw [splitOnPredL_append '\t' _ (by decide) _
    (fun x hx => decide_eq_false (formatFixed3_no_tab s x hx))]
  rw [splitOnPredL_append '\t' _ (by decide) _
    (fun x hx => decide_eq_false (formatFixed3_no_tab e x hx))]
  rw [splitOnPredL_all_false
    (fun x hx => decide_eq_false (goodLabel_no_tab hlab x hx))]
  simp [mk_toList]

/-- Parsing one line of the round-trip form succeeds with the quantized
values, the constant track 1 and the label. -/
theorem parseAudacityLine_good (s e : ℚ) {lab : String} (hlab : goodLabel lab = true) :
    parseAudacityLine (audTextLine s e lab) =
      Except.ok (Segment.mk (quant3 s) (quant3 e), 1, lab) := by
  unfold parseAudacityLine
  rw [pySplit_audTextLine s e hlab]
  unfold parseAudacityFields
  dsimp only
  rw [pyFloat_formatFixed3, pyFloat_formatFixed3]

/-- getD agrees with a successful get?. -/
theorem getD_of_get? {α : Type} {l : List α} {i : Nat} {x : α}
    (h : l.get? i = some x) (d : α) : l.getD i d = x := by
  rw [List.getD_eq_getElem?_getD, ← List.get?_eq_getElem?, h]
  rfl

/-- A successful get? for an index within the list. -/
theorem get?_of_lt {α : Type} {l : List α} {i : Nat} (h : i < l.length) (d : α) :
    l.get? i = some (l.getD i d) := by
  rw [List.getD_eq_getElem?_getD, ← List.get?_eq_getElem?]
  cases hg : l.get? i with
  | none => exact absurd (List.get?_eq_none.mp hg) (by omega)
  | some x => rfl

/-- The parsing loop maps the round-trip lines to their records. -/
theorem parseLines_roundTrip (rs : List (ℚ × ℚ × String))
    (hlab : ∀ r ∈ rs, goodLabel r.2.2 = true) :
    parseLines parseAudacityLine (rs.map (fun r => audTextLine r.1 r.2.1 r.2.2)) =
      Except.ok (rs.map (fun r => (Segment.mk (quant3 r.1) (quant3 r.2.1), 1, r.2.2))) := by
  induction rs with
  | nil => rfl
  | cons r rs ih =>
    have h1 := parseAudacityLine_good r.1 r.2.1 (hlab r (List.mem_cons_self r rs))
    have h2 := ih (fun x hx => hlab x (List.mem_cons_of_mem r hx))
    simp [parseLines, h1, h2]

/-- The success and failure of one parsed line propagate through from_rttm on
a single-line source. -/
theorem from_rttm_single (line : String) (u m : Option String) :
    (∀ r, parseRTTMLine line = Except.ok r →
      from_rttm [line] u m = Except.ok (Annot.mk [r] u m)) ∧
    (∀ e, parseRTTMLine line = Except.error e →
      from_rttm [line] u m = Except.error e) := by
  constructor <;> intro x h <;> simp [from_rttm, parseLines, h, from_records]

/-- The success and failure of one parsed line propagate through
from_audacity on a single-line file. -/
theorem from_audacity_single (line : String) (u m : Option String) :
    (∀ r, parseAudacityLine line = Except.ok r →
      from_audacity [line] u m = Except.ok (Annot.mk [r] u m)) ∧
    (∀ e, parseAudacityLine line = Except.error e →
      from_audacity [line] u m = Except.error e) := by
  constructor <;> intro x h <;> simp [from_audacity, parseLines, h, from_records]

/-- The RTTM token processing succeeds exactly when there are at least eight
tokens and tokens 2, 3 and 4 parse as their numeric types. -/
theorem parseRTTMTokens_ok_iff (toks : List String) :
    (∃ r, parseRTTMTokens toks = Except.ok r) ↔
      (8 ≤ toks.length ∧ (pyInt (toks.getD 2 "")).isSome = true ∧
       (pyFloat (toks.getD 3 "")).isSome = true ∧
       (pyFloat (toks.getD 4 "")).isSome = true) := by
  unfold parseRTTMTokens getTok
  rcases h3 : toks.get? 3 with _ | t3
  · have hlen := List.get?_eq_none.mp h3
    simp [h3]
    omega
  · dsimp only
    rcases hf3 : pyFloat t3 with _ | v3
    · have hD : toks[3]? = some t3 := by
        rw [← List.get?_eq_getElem?]; exact h3
      simp [hf3, hD]
    · rcases h4 : toks.get? 4 with _ | t4
      · have hlen := List.get?_eq_none.mp h4
        simp [h4]
        omega
      · dsimp only
        rcases hf4 : pyFloat t4 with _ | v4
        · have hD : toks[4]? = some t4 := by
            rw [← List.get?_eq_getElem?]; exact h4
          simp [hf4, hD]
        · rcases h2 : toks.get? 2 with _ | t2
          · have hlen := List.get?_eq_none.mp h2
            simp [h2]
            omega
          · dsimp only
            rcases hi2 : pyInt t2 with _ | v2
            · have hD : toks[2]? = some t2 := by
                rw [← List.get?_eq_getElem?]; exact h2
              simp [hi2, hD]
            · rcases h7 : toks.get? 7 with _ | t7
              · have hlen := List.get?_eq_none.mp h7
                simp [h7]
                omega
              · dsimp only
                have hlen : 7 < toks.length := (List.get?_eq_some.mp h7).1
                have hD2 : toks[2]? = some t2 := by
                  rw [← List.get?_eq_getElem?]; exact h2
                have hD3 : toks[3]? = some t3 := by
                  rw [← List.get?_eq_getElem?]; exact h3
                have hD4 : toks[4]? = some t4 := by
                  rw [← List.get?_eq_getElem?]; exact h4
                simp [hf3, hf4, hi2, hD2, hD3, hD4]
                omega

/-- The audacity field processing succeeds exactly when there are exactly
three fields whose first two parse as floats. -/
theorem parseAudacityFields_ok_iff (fields : List String) :
    (∃ r, parseAudacityFields fields = Except.ok r) ↔
      (fields.length = 3 ∧ (pyFloat (fields.getD 0 "")).isSome = true ∧
       (pyFloat (fields.getD 1 "")).isSome = true) := by
  rcases fields with _ | ⟨a, _ | ⟨b, _ | ⟨c, _ | ⟨d, rest⟩⟩⟩⟩
  · simp [parseAudacityFields]
  · simp [parseAudacityFields]
  · simp [parseAudacityFields]
  · unfold parseAudacityFields
    rcases hf0 : pyFloat a with _ | v0
    · simp [hf0]
    · dsimp only
      rcases hf1 : pyFloat b with _ | v1
      · simp [hf0, hf1]
      · simp [hf0, hf1]
  · simp only [parseAudacityFields, List.length_cons]
    constructor
    · rintro ⟨r, hr⟩
      exact absurd hr (by simp)
    · rintro ⟨hlen, -⟩
      omega

/-- The audacity field processing on exactly three fields with parseable
floats yields the record with the constant track 1. -/
theorem parseAudacityFields_ok (x y lab : String) (sv ev : ℚ)
    (hx : pyFloat x = some sv) (hy : pyFloat y = some ev) :
    parseAudacityFields [x, y, lab] = Except.ok (Segment.mk sv ev, 1, lab) := by
  unfold parseAudacityFields
  dsimp only
  rw [hx]
  dsimp only
  rw [hy]

/-- Serializing the records built from the round-trip text reproduces the
text. -/
theorem to_audacity_map (rs : List (ℚ × ℚ × String)) (u m : Option String) :
    to_audacity (Annot.mk (rs.map (fun r => (Segment.mk r.1 r.2.1, 1, r.2.2))) u m) =
      String.join (rs.map (fun r => audTextLine r.1 r.2.1 r.2.2)) := by
  unfold to_audacity iter_audacity
  rw [List.map_map]
  rfl

/-- Claim C1: parsing the single RTTM line
SPEAKER file1 1 10.000 2.500 NA NA spk1 NA yields exactly one record with
segment start 10.000 and end 12.500 (start plus duration), track the integer
1 and label spk1; serializing that annotation with to_rttm and uri file1
emits exactly the original line with its newline. -/
theorem claim_C1_rttm_scenario :
    from_rttm ["SPEAKER file1 1 10.000 2.500 <NA> <NA> spk1 <NA>\n"]
        (some ("file1")) none =
      Except.ok (Annot.mk [(Segment.mk 10 (25/2), 1, "spk1")] (some ("file1")) none) ∧
    (25/2 : ℚ) = 10 + 5/2 ∧
    to_rttm (Annot.mk [(Segment.mk 10 (25/2), 1, "spk1")] (some ("file1")) none) [] =
      ["SPEAKER file1 1 10.000 2.500 <NA> <NA> spk1 <NA>\n"] := by
  refine ⟨by decide, by decide, by decide⟩

/-- Claim C2: to_rttm emits one line per record, in record order, with layout
SPEAKER uri 1 start duration NA NA label NA; the uri is interpolated as-is
(the text None when absent), the channel field is the constant 1 regardless
of the stored track id, and the duration field is end minus start computed at
write time and 3-decimal formatted. -/
theorem claim_C2_rttm_layout (a : Annot) (file : List String) :
    to_rttm a file = file ++ a.segment_list.map (fun r =>
      "SPEAKER " ++ pyStr a.uri ++ " 1 " ++ formatFixed3 r.1.start ++ " " ++
        formatFixed3 (r.1.stop - r.1.start) ++ " <NA> <NA> " ++ r.2.2 ++ " <NA>\n") ∧
    pyStr none = "None" ∧
    (∀ t : ℤ,
      to_rttm (Annot.mk (a.segment_list.map fun r => (r.1, t, r.2.2)) a.uri a.modality)
          file =
        to_rttm a file) := by
  refine ⟨?_, rfl, ?_⟩
  · rw [to_rttm_eq_map]
    rfl
  · intro t
    rw [to_rttm_eq_map, to_rttm_eq_map]
    simp only [List.map_map]
    rfl

/-- Claim C3 counterexample: this line carries nine whitespace-separated
tokens whose tokens 2, 3 and 4 parse as int, float and float, so the claim
asserts success; but the source splits on single spaces, the double space
yields an empty token at position 2, and int of the empty string raises, so
from_rttm fails on it. -/
theorem claim_C3_counterexample :
    8 ≤ (wsSplit ("SPEAKER file1  1 10.000 2.500 <NA> <NA> spk1 <NA>")).length ∧
    pyInt ((wsSplit ("SPEAKER file1  1 10.000 2.500 <NA> <NA> spk1 <NA>")).getD 2 ("")) =
      some 1 ∧
    pyFloat ((wsSplit ("SPEAKER file1  1 10.000 2.500 <NA> <NA> spk1 <NA>")).getD 3 ("")) =
      some 10 ∧
    pyFloat ((wsSplit ("SPEAKER file1  1 10.000 2.500 <NA> <NA> spk1 <NA>")).getD 4 ("")) =
      some (5/2) ∧
    parseRTTMLine ("SPEAKER file1  1 10.000 2.500 <NA> <NA> spk1 <NA>") =
      Except.error PyError.valueError ∧
    from_rttm ["SPEAKER file1  1 10.000 2.500 <NA> <NA> spk1 <NA>"] none none =
      Except.error PyError.valueError := by
  decide

/-- Claim C3 (amended): from_rttm strips trailing whitespace from each line
and splits it on single space characters (consecutive spaces yield empty
tokens); it fails with a Python exception exactly when that split yields
fewer than 8 tokens or token 2, 3 or 4 fails to parse as int, float, float;
otherwise exactly one record is appended for the line and no error is
raised. -/
theorem claim_C3_rttm_errors (line : String) (u m : Option String) :
    ((∃ r, parseRTTMLine line = Except.ok r) ↔
      (8 ≤ (pySplit ' ' (rstrip line)).length ∧
       (pyInt ((pySplit ' ' (rstrip line)).getD 2 (""))).isSome = true ∧
       (pyFloat ((pySplit ' ' (rstrip line)).getD 3 (""))).isSome = true ∧
       (pyFloat ((pySplit ' ' (rstrip line)).getD 4 (""))).isSome = true)) ∧
    (∀ r, parseRTTMLine line = Except.ok r →
      from_rttm [line] u m = Except.ok (Annot.mk [r] u m)) ∧
    (∀ e, parseRTTMLine line = Except.error e →
      from_rttm [line] u m = Except.error e) :=
  ⟨parseRTTMTokens_ok_iff _, (from_rttm_single line u m).1, (from_rttm_single line u m).2⟩

/-- Claim C3 witness: a well-formed line parses into one record and from_rttm
succeeds on it. -/
theorem claim_C3_witness :
    from_rttm ["SPEAKER fileA 3 1.500 2.500 <NA> <NA> spk <NA>\n"] none none =
      Except.ok (Annot.mk [(Segment.mk (3/2) 4, 3, "spk")] none none) :=
  (claim_C3_rttm_errors ("SPEAKER fileA 3 1.500 2.500 <NA> <NA> spk <NA>\n") none none).2.1
    (Segment.mk (3/2) 4, 3, "spk") (by decide)

/-- Claim C4: from_audacity fails with a Python exception exactly when the
rstripped line does not split into exactly 3 tab-separated fields or one of
the first two fields fails to parse as float (a line with only 2 tab
fields raises); each successfully parsed line yields the record with segment
(start, end) from the first two fields, the constant track 1 and the third
field as label. -/
theorem claim_C4_audacity_errors (line : String) (u m : Option String) :
    ((∃ r, parseAudacityLine line = Except.ok r) ↔
      ((pySplit '\t' (rstrip line)).length = 3 ∧
       (pyFloat ((pySplit '\t' (rstrip line)).getD 0 (""))).isSome = true ∧
       (pyFloat ((pySplit '\t' (rstrip line)).getD 1 (""))).isSome = true)) ∧
    (∀ x y lab sv ev, pySplit '\t' (rstrip line) = [x, y, lab] →
      pyFloat x = some sv → pyFloat y = some ev →
      parseAudacityLine line = Except.ok (Segment.mk sv ev, 1, lab)) ∧
    (∀ r, parseAudacityLine line = Except.ok r →
      from_audacity [line] u m = Except.ok (Annot.mk [r] u m)) ∧
    (∀ e, parseAudacityLine line = Except.error e →
      from_audacity [line] u m = Except.error e) ∧
    parseAudacityLine ("1.0\t2.0\n") = Except.error PyError.valueError := by
  refine ⟨parseAudacityFields_ok_iff _, ?_, (from_audacity_single line u m).1,
    (from_audacity_single line u m).2, by decide⟩
  intro x y lab sv ev hsplit hx hy
  unfold parseAudacityLine
  rw [hsplit]
  exact parseAudacityFields_ok x y lab sv ev hx hy

/-- Claim C4 witness: a well-formed marker line parses into its record and
from_audacity succeeds on it. -/
theorem claim_C4_witness :
    parseAudacityLine ("0.500\t1.500\tbob\n") =
      Except.ok (Segment.mk (1/2) (3/2), 1, "bob") ∧
    from_audacity ["0.500\t1.500\tbob\n"] none none =
      Except.ok (Annot.mk [(Segment.mk (1/2) (3/2), 1, "bob")] none none) := by
  have h := claim_C4_audacity_errors ("0.500\t1.500\tbob\n") none none
  have h1 := h.2.1 ("0.500") ("1.500") ("bob") (1/2) (3/2)
    (by decide) (by decide) (by decide)
  exact ⟨h1, h.2.2.1 _ h1⟩

/-- Claim C5 counterexample: the single-line text 1.000 tab 2.000 tab
followed by the label a-space and a newline has correctly 3-decimal-formatted
start and end fields (they are exactly what the formatter writes for 1 and
2), so the claim as stated asserts a byte-identical round trip; but the
source's rstrip eats the label's trailing space, the text parses with label
a, and re-serializing yields a different string. -/
theorem claim_C5_counterexample :
    formatFixed3 1 = "1.000" ∧
    formatFixed3 2 = "2.000" ∧
    from_audacity ["1.000\t2.000\ta \n"] none none =
      Except.ok (Annot.mk [(Segment.mk 1 2, 1, "a")] none none) ∧
    to_audacity (Annot.mk [(Segment.mk 1 2, 1, "a")] none none) =
      "1.000\t2.000\ta\n" ∧
    "1.000\t2.000\ta\n" ≠ "1.000\t2.000\ta \n" := by
  decide

/-- Claim C5 (amended): parsing a marker-timeline text whose numeric fields
are correctly 3-decimal-formatted and whose labels are nonempty, free of tabs
and newlines, and do not end in whitespace (rstrip would otherwise alter or
destroy them) with from_audacity and re-serializing with to_audacity
reproduces the text byte-identically; the records carry the parsed
(start, end), the constant track 1 and the label. -/
theorem claim_C5_roundtrip (rs : List (ℚ × ℚ × String)) (uri modality : Option String)
    (hlab : ∀ r ∈ rs, goodLabel r.2.2 = true)
    (hq : ∀ r ∈ rs, quant3 r.1 = r.1 ∧ quant3 r.2.1 = r.2.1) :
    from_audacity (rs.map (fun r => audTextLine r.1 r.2.1 r.2.2)) uri modality =
      Except.ok (Annot.mk
        (rs.map (fun r => ((Segment.mk r.1 r.2.1 : Segment), (1 : ℤ), r.2.2)))
        uri modality) ∧
    to_audacity (Annot.mk
        (rs.map (fun r => ((Segment.mk r.1 r.2.1 : Segment), (1 : ℤ), r.2.2)))
        uri modality) =
      String.join (rs.map (fun r => audTextLine r.1 r.2.1 r.2.2)) := by
  have hmap : rs.map (fun r =>
      ((Segment.mk (quant3 r.1) (quant3 r.2.1) : Segment), (1 : ℤ), r.2.2)) =
      rs.map (fun r => ((Segment.mk r.1 r.2.1 : Segment), (1 : ℤ), r.2.2)) :=
    List.map_congr_left (fun r hr => by rw [(hq r hr).1, (hq r hr).2])
  constructor
  · unfold from_audacity
    rw [parseLines_roundTrip rs hlab]
    rw [show (rs.map (fun r => (Segment.mk (quant3 r.1) (quant3 r.2.1), 1, r.2.2))) =
      rs.map (fun r => ((Segment.mk r.1 r.2.1 : Segment), (1 : ℤ), r.2.2)) from hmap]
    rfl
  · rw [to_audacity_map]

/-- Claim C5 witness: the single line 1.000 tab 2.000 tab spkA round-trips
byte-identically through from_audacity and to_audacity. -/
theorem claim_C5_witness :
    from_audacity ["1.000\t2.000\tspkA\n"] none none =
      Except.ok (Annot.mk [(Segment.mk 1 2, 1, "spkA")] none none) ∧
    to_audacity (Annot.mk [(Segment.mk 1 2, 1, "spkA")] none none) =
      "1.000\t2.000\tspkA\n" := by
  have h := claim_C5_roundtrip [(1, 2, "spkA")] none none (by decide) (by decide)
  have hline : ([((1 : ℚ), (2 : ℚ), ("spkA" : String))].map
      (fun r => audTextLine r.1 r.2.1 r.2.2)) = ["1.000\t2.000\tspkA\n"] := by decide
  have hrec : ([((1 : ℚ), (2 : ℚ), ("spkA" : String))].map
      (fun r => ((Segment.mk r.1 r.2.1 : Segment), (1 : ℤ), r.2.2))) =
      [(Segment.mk 1 2, 1, "spkA")] := by decide
  constructor
  · rw [← hline, ← hrec]
    exact h.1
  · rw [← hrec, h.2, hline]
    decide

/-- Claim C6: the string returned by to_audacity is byte-identical to the
concatenation of the chunks write_audacity writes to the sink; every line has
the form start tab end tab label newline with 3-decimal numeric fields, and
the output is invariant under changing the stored track ids, which therefore
never appear in it. -/
theorem claim_C6_write_equiv (a : Annot) (file : List String) :
    to_audacity a = String.join (write_audacity a []) ∧
    write_audacity a file = file ++ a.segment_list.map (fun r =>
      formatFixed3 r.1.start ++ "\t" ++ formatFixed3 r.1.stop ++ "\t" ++
        r.2.2 ++ "\n") ∧
    (∀ t : ℤ,
      to_audacity
          (Annot.mk (a.segment_list.map fun r => (r.1, t, r.2.2)) a.uri a.modality) =
        to_audacity a) := by
  refine ⟨?_, ?_, ?_⟩
  · rw [write_audacity_eq]
    rfl
  · rw [write_audacity_eq]
    rfl
  · intro t
    unfold to_audacity iter_audacity
    rw [List.map_map]
    rfl

/-- Claim C7: order preservation for every N, including N equal 0: both
serializers emit one line per record, the line at index i comes from the
record at index i, and an empty annotation produces empty output. -/
theorem claim_C7_order (a : Annot) (i : Nat) (u m : Option String) :
    (to_rttm a []).length = a.segment_list.length ∧
    (write_audacity a []).length = a.segment_list.length ∧
    (to_rttm a []).get? i = (a.segment_list.get? i).map (rttmLine a.uri) ∧
    (write_audacity a []).get? i = (a.segment_list.get? i).map audacityLine ∧
    to_rttm (Annot.mk [] u m) [] = [] ∧
    to_audacity (Annot.mk [] u m) = "" := by
  refine ⟨?_, ?_, ?_, ?_, rfl, rfl⟩
  · rw [to_rttm_eq_map]
    simp
  · rw [write_audacity_eq]
    simp [iter_audacity]
  · rw [to_rttm_eq_map]
    simp [List.get?_map]
  · rw [write_audacity_eq]
    simp [iter_audacity, List.get?_map]

/-- Claim C8: a record whose segment has equal start and end serializes with
the duration field 0.000, in any position of any annotation, and to_rttm is
total on it (no error is possible in the model). -/
theorem claim_C8_zero_duration (s : ℚ) (t : ℤ) (lab : String) (u m : Option String)
    (file : List String) (rest : List Record) :
    formatFixed3 (Segment.duration (Segment.mk s s)) = "0.000" ∧
    to_rttm (Annot.mk ((Segment.mk s s, t, lab) :: rest) u m) file =
      file ++ ("SPEAKER " ++ pyStr u ++ " 1 " ++ formatFixed3 s ++ " " ++ "0.000" ++
        " <NA> <NA> " ++ lab ++ " <NA>\n") :: rest.map (rttmLine u) := by
  have h0 : formatFixed3 (Segment.duration (Segment.mk s s)) = "0.000" := by
    unfold Segment.duration
    rw [show (Segment.mk s s).stop - (Segment.mk s s).start = 0 from sub_self s]
    decide
  refine ⟨h0, ?_⟩
  rw [to_rttm_eq_map, List.map_cons]
  congr 2
  unfold rttmLine
  rw [h0]

/-- Claim C9: the serialization methods leave the annotation unchanged (the
Python bodies assign no attribute), and repeated serialization of the same
annotation produces the same output. -/
theorem claim_C9_frame (a : Annot) (file : List String) :
    (to_rttm_method a file).1 = a ∧
    (to_rttm_method a file).1.segment_list = a.segment_list ∧
    (to_rttm_method a file).1.uri = a.uri ∧
    (to_rttm_method a file).1.modality = a.modality ∧
    (to_audacity_method a).1 = a ∧
    (write_audacity_method a file).1 = a ∧
    (to_rttm_method ((to_rttm_method a file).1) file).2 = (to_rttm_method a file).2 ∧
    (to_audacity_method ((to_audacity_method a).1)).2 = (to_audacity_method a).2 ∧
    (write_audacity_method ((write_audacity_method a file).1) file).2 =
      (write_audacity_method a file).2 :=
  ⟨rfl, rfl, rfl, rfl, rfl, rfl, rfl, rfl, rfl⟩

/-- Claim C10: from_records performs no validation (it wraps any record list
unchanged), and a record with end smaller than start serializes without
error: to_rttm emits the negative duration end minus start 3-decimal
formatted (here -1.000) and to_audacity emits start and end unchecked. -/
theorem claim_C10_no_validation (l : List Record) (u m : Option String) :
    from_records l u m = Annot.mk l u m ∧
    (from_records l u m).segment_list = l ∧
    to_rttm (Annot.mk [(Segment.mk 2 1, 1, "x")] (some ("u")) none) [] =
      ["SPEAKER u 1 2.000 -1.000 <NA> <NA> x <NA>\n"] ∧
    to_audacity (Annot.mk [(Segment.mk 2 1, 1, "x")] (some ("u")) none) =
      "2.000\t1.000\tx\n" ∧
    (∀ (sg : Segment) (t : ℤ) (lab : String) (file : List String),
      to_rttm (Annot.mk [(sg, t, lab)] u m) file =
        file ++ ["SPEAKER " ++ pyStr u ++ " 1 " ++ formatFixed3 sg.start ++ " " ++
          formatFixed3 (sg.stop - sg.start) ++ " <NA> <NA> " ++ lab ++ " <NA>\n"]) := by
  refine ⟨rfl, rfl, by decide, by decide, ?_⟩
  intro sg t lab file
  rw [to_rttm_eq_map]
  rfl
